import Mathlib

/-!
Verification development for the monzo-hat-integration data connector.

The development shallowly embeds the JavaScript modules that the spec
covers: the checksum utility (src/utils/integrity.js), the retry policy
engine (src/utils/retry-handler.js), the callback delivery client
(src/gateway/callback-client.js), the request lifecycle manager
(src/gateway/monzo-webhook.js) and the wallet storage payload builder
(src/storage/wallet-client.js).  JavaScript numbers are modelled as
integers, rationals are used where fractional arithmetic matters
(backoff jitter), nondeterminism (clock reads, Math.random, HTTP
responses) is lifted into explicit parameters, and the SHA-256 digest
primitive of the Node crypto library is modelled as an abstract
deterministic function producing 64 lowercase hexadecimal characters.
-/

namespace Integrity

/-- JSON-like values: the data handled by the integrity utility.
Numbers are modelled as integers (the claims under study never depend
on float formatting), objects as key/value pair lists in insertion
order, mirroring JavaScript objects. -/
inductive JsonValue where
  | null : JsonValue
  | bool (b : Bool) : JsonValue
  | num (n : Int) : JsonValue
  | str (s : String) : JsonValue
  | arr (items : List JsonValue) : JsonValue
  | obj (fields : List (String × JsonValue)) : JsonValue

/-- Escape one character the way JSON.stringify escapes characters in a
string literal. -/
def jsonEscapeChar (c : Char) : String :=
  if c = '"' then "\\\""
  else if c = '\\' then "\\\\"
  else if c = '\n' then "\\n"
  else if c = '\r' then "\\r"
  else if c = '\t' then "\\t"
  else if c = (Char.ofNat 8) then "\\b"
  else if c = (Char.ofNat 12) then "\\f"
  else if c.toNat < 32 then
    let d1 := Nat.digitChar (c.toNat / 16)
    let d2 := Nat.digitChar (c.toNat % 16)
    "\\u00" ++ String.mk [d1, d2]
  else String.mk [c]

/-- JSON.stringify of a string value: double quotes around the escaped
character sequence. -/
def jsonQuote (s : String) : String :=
  "\"" ++ String.join (s.toList.map jsonEscapeChar) ++ "\""

/-- JSON.stringify restricted to the primitive values the recursive
serializer hands to it (null, booleans, numbers, strings). -/
def jsonPrimString : JsonValue → String
  | .null => "null"
  | .bool b => if b then "true" else "false"
  | .num n => toString n
  | .str s => jsonQuote s
  | .arr _ => ""
  | .obj _ => ""

/-- Key order used by the serializer: `fields.sort()` on the keys; since
JavaScript object keys are unique, sorting the key/value pairs by key is
the same as sorting the keys and looking each one up. -/
def fieldLe (a b : String × JsonValue) : Prop := a.1 ≤ b.1

instance : DecidableRel fieldLe := fun a b => inferInstanceAs (Decidable (a.1 ≤ b.1))

theorem sizeOf_snd_lt_of_mem {p : String × JsonValue}
    {l : List (String × JsonValue)} (h : p ∈ l) : sizeOf p.2 < 1 + sizeOf l := by
  have h1 : sizeOf p < sizeOf l := List.sizeOf_lt_of_mem h
  have h2 : sizeOf p.2 < sizeOf p := by
    cases p with
    | mk k v => simp
  omega

theorem sizeOf_mem_lt_of_mem {x : JsonValue} {l : List JsonValue}
    (h : x ∈ l) : sizeOf x < 1 + sizeOf l := by
  have h1 : sizeOf x < sizeOf l := List.sizeOf_lt_of_mem h
  omega

/-- Shallow embedding of Integrity._stringifyDeterministic: null,
undefined and non-objects go through JSON.stringify; arrays serialize
elementwise between square brackets; objects serialize their fields in
sorted key order between curly braces. -/
def stringifyDeterministic : JsonValue → String
  | .null => "null"
  | .bool b => jsonPrimString (.bool b)
  | .num n => jsonPrimString (.num n)
  | .str s => jsonPrimString (.str s)
  | .arr items =>
      "[" ++ String.intercalate ","
        (items.attach.map (fun x => stringifyDeterministic x.1)) ++ "]"
  | .obj fields =>
      "\x7b" ++ String.intercalate ","
        ((List.insertionSort fieldLe fields).attach.map
          (fun p => jsonQuote p.1.1 ++ ":" ++ stringifyDeterministic p.1.2)) ++ "\x7d"
termination_by v => sizeOf v
decreasing_by
  · exact Nat.lt_of_lt_of_le (sizeOf_mem_lt_of_mem x.2) (by simp)
  · rename_i fs
    have hmem : p.1 ∈ fs :=
      (List.perm_insertionSort fieldLe fs).mem_iff.mp p.2
    exact Nat.lt_of_lt_of_le (sizeOf_snd_lt_of_mem hmem) (by simp)

/-- Model of the SHA-256 hex digest of the Node crypto library
(crypto.createHash followed by digest), which is external to the
repository: an arbitrary deterministic function of the input string
whose output is 64 lowercase hexadecimal characters.  Every claim under
study depends only on determinism and on the output format, never on
actual SHA-256 digest values. -/
def sha256hex (s : String) : String :=
  let h : Nat := s.toList.foldl (fun acc c => (acc * 131 + c.toNat + 1) % (2 ^ 256)) 5381
  String.mk ((List.range 64).map (fun i => Nat.digitChar ((h / 16 ^ (63 - i)) % 16)))

/-- Shallow embedding of Integrity.compute_checksum: a string input is
hashed as is, any other input is hashed through the deterministic
serializer. -/
def compute_checksum (data : JsonValue) : String :=
  match data with
  | .str s => sha256hex s
  | v => sha256hex (stringifyDeterministic v)

/-- Recognizer for string values: compute_checksum special-cases them. -/
def isStringValue : JsonValue → Bool
  | .str _ => true
  | _ => false

theorem stringify_arr_eq (items : List JsonValue) :
    stringifyDeterministic (.arr items) =
      "[" ++ String.intercalate "," (items.map stringifyDeterministic) ++ "]" := by
  rw [stringifyDeterministic]
  rw [List.attach_map_val items stringifyDeterministic]

/-- Serialize one key/value pair whose value is already serialized. -/
def renderField (q : String × String) : String :=
  jsonQuote q.1 ++ ":" ++ q.2

/-- Serialize the value component of a field. -/
def fieldStr (p : String × JsonValue) : String × String :=
  (p.1, stringifyDeterministic p.2)

/-- Key order on already-serialized fields. -/
def strFieldLe (a b : String × String) : Prop := a.1 ≤ b.1

instance : DecidableRel strFieldLe := fun a b => inferInstanceAs (Decidable (a.1 ≤ b.1))

instance : IsTotal (String × String) strFieldLe := ⟨fun a b => le_total a.1 b.1⟩

instance : IsTrans (String × String) strFieldLe := ⟨fun _ _ _ h1 h2 => le_trans h1 h2⟩

theorem stringify_obj_eq (fields : List (String × JsonValue)) :
    stringifyDeterministic (.obj fields) =
      "\x7b" ++ String.intercalate ","
        (((List.insertionSort fieldLe fields).map fieldStr).map renderField) ++ "\x7d" := by
  rw [stringifyDeterministic]
  rw [List.attach_map_val (List.insertionSort fieldLe fields)
    (fun p => jsonQuote p.1 ++ ":" ++ stringifyDeterministic p.2)]
  rw [List.map_map]
  rfl

theorem orderedInsert_map_fieldStr (p : String × JsonValue) :
    ∀ l : List (String × JsonValue),
      (List.orderedInsert fieldLe p l).map fieldStr =
        List.orderedInsert strFieldLe (fieldStr p) (l.map fieldStr)
  | [] => rfl
  | q :: l => by
      by_cases h : fieldLe p q
      · have h2 : strFieldLe (fieldStr p) (fieldStr q) := h
        simp [List.orderedInsert, h, h2]
      · have h2 : ¬ strFieldLe (fieldStr p) (fieldStr q) := h
        simp [List.orderedInsert, h, h2, orderedInsert_map_fieldStr p l]

theorem insertionSort_map_fieldStr :
    ∀ l : List (String × JsonValue),
      (List.insertionSort fieldLe l).map fieldStr =
        List.insertionSort strFieldLe (l.map fieldStr)
  | [] => rfl
  | p :: l => by
      simp only [List.insertionSort, List.map]
      rw [orderedInsert_map_fieldStr, insertionSort_map_fieldStr l]

theorem sorted_perm_nodup_keys_eq :
    ∀ (l1 l2 : List (String × String)), l1.Perm l2 →
      l1.Sorted strFieldLe → l2.Sorted strFieldLe →
      (l1.map Prod.fst).Nodup → l1 = l2
  | [], l2, hp, _, _, _ => (hp.nil_eq).symm ▸ rfl
  | a :: t1, l2, hp, hs1, hs2, hn1 => by
      cases l2 with
      | nil => exact absurd hp.symm (by simp)
      | cons b t2 =>
          have hmem_a : a ∈ b :: t2 := hp.mem_iff.mp (List.mem_cons_self a t1)
          have hmem_b : b ∈ a :: t1 := hp.mem_iff.mpr (List.mem_cons_self b t2)
          have hab : a = b := by
            rcases List.mem_cons.mp hmem_a with h | ha2
            · exact h
            rcases List.mem_cons.mp hmem_b with h | hb1
            · exact h.symm
            exfalso
            have hba : b.1 ≤ a.1 := (List.sorted_cons.mp hs2).1 a ha2
            have hab1 : a.1 ≤ b.1 := (List.sorted_cons.mp hs1).1 b hb1
            have hkey : a.1 = b.1 := le_antisymm hab1 hba
            have : a.1 ∈ t1.map Prod.fst := hkey ▸ List.mem_map_of_mem Prod.fst hb1
            exact (List.nodup_cons.mp (by simpa using hn1)).1 this
          subst hab
          have ht : t1.Perm t2 := hp.cons_inv
          have := sorted_perm_nodup_keys_eq t1 t2 ht
            (List.sorted_cons.mp hs1).2 (List.sorted_cons.mp hs2).2
            (List.nodup_cons.mp (by simpa using hn1)).2
          rw [this]

/-- The nested reordering relation of the claim: one value is obtained
from the other by permuting the insertion order of the fields of any
nested mapping while keeping every key/value pair identical. -/
inductive ObjPerm : JsonValue → JsonValue → Prop where
  | null : ObjPerm .null .null
  | bool (b : Bool) : ObjPerm (.bool b) (.bool b)
  | num (n : Int) : ObjPerm (.num n) (.num n)
  | str (s : String) : ObjPerm (.str s) (.str s)
  | arr {xs ys : List JsonValue} :
      xs.length = ys.length →
      (∀ q ∈ xs.zip ys, ObjPerm q.1 q.2) →
      ObjPerm (.arr xs) (.arr ys)
  | obj {l m l2 : List (String × JsonValue)} :
      l.Perm m →
      m.length = l2.length →
      (∀ q ∈ m.zip l2, q.1.1 = q.2.1) →
      (∀ q ∈ m.zip l2, ObjPerm q.1.2 q.2.2) →
      ObjPerm (.obj l) (.obj l2)

/-- Well-formedness of a JavaScript value: every nested object has
pairwise distinct keys, as JavaScript objects always do. -/
inductive UniqueKeys : JsonValue → Prop where
  | null : UniqueKeys .null
  | bool (b : Bool) : UniqueKeys (.bool b)
  | num (n : Int) : UniqueKeys (.num n)
  | str (s : String) : UniqueKeys (.str s)
  | arr {xs : List JsonValue} :
      (∀ x ∈ xs, UniqueKeys x) → UniqueKeys (.arr xs)
  | obj {l : List (String × JsonValue)} :
      (l.map Prod.fst).Nodup →
      (∀ p ∈ l, UniqueKeys p.2) → UniqueKeys (.obj l)

theorem map_eq_of_zip {α β γ : Type} (f : α → γ) (g : β → γ) :
    ∀ (xs : List α) (ys : List β), xs.length = ys.length →
      (∀ q ∈ xs.zip ys, f q.1 = g q.2) → xs.map f = ys.map g
  | [], [], _, _ => rfl
  | [], _ :: _, h, _ => by simp at h
  | _ :: _, [], h, _ => by simp at h
  | x :: xs, y :: ys, h, hq => by
      simp only [List.map]
      rw [hq (x, y) (by simp [List.zip]),
        map_eq_of_zip f g xs ys (by simpa using h)
          (fun q hmem => hq q (by simp [List.zip]; right; simpa [List.zip] using hmem))]

theorem stringify_eq_of_objPerm :
    ∀ (v w : JsonValue), ObjPerm v w → UniqueKeys v →
      stringifyDeterministic v = stringifyDeterministic w
  | _, _, .null, _ => rfl
  | _, _, .bool _, _ => rfl
  | _, _, .num _, _ => rfl
  | _, _, .str _, _ => rfl
  | .arr xs, .arr ys, .arr hlen hzip, hu => by
      cases hu with
      | arr huxs =>
          rw [stringify_arr_eq, stringify_arr_eq]
          have hmaps : xs.map stringifyDeterministic = ys.map stringifyDeterministic := by
            apply map_eq_of_zip _ _ xs ys hlen
            intro q hq
            obtain ⟨qa, qb⟩ := q
            have hx : qa ∈ xs := (List.of_mem_zip hq).1
            exact stringify_eq_of_objPerm qa qb (hzip (qa, qb) hq) (huxs qa hx)
          rw [hmaps]
  | .obj l, .obj l2, .obj hperm hlen hkeys hvals, hu => by
      cases hu with
      | obj hnodup huvals =>
          rw [stringify_obj_eq, stringify_obj_eq]
          rename_i m
          have hmapm : m.map fieldStr = l2.map fieldStr := by
            apply map_eq_of_zip fieldStr fieldStr m l2 hlen
            intro q hq
            obtain ⟨qa, qb⟩ := q
            have hal : qa ∈ l := hperm.mem_iff.mpr (List.of_mem_zip hq).1
            have hkey : qa.1 = qb.1 := hkeys (qa, qb) hq
            have hval : stringifyDeterministic qa.2 = stringifyDeterministic qb.2 :=
              stringify_eq_of_objPerm qa.2 qb.2 (hvals (qa, qb) hq) (huvals qa hal)
            show (qa.1, stringifyDeterministic qa.2) = (qb.1, stringifyDeterministic qb.2)
            rw [hkey, hval]
          have hpermS : (l.map fieldStr).Perm (l2.map fieldStr) :=
            hmapm ▸ hperm.map fieldStr
          have hsorteq : List.insertionSort strFieldLe (l.map fieldStr) =
              List.insertionSort strFieldLe (l2.map fieldStr) := by
            apply sorted_perm_nodup_keys_eq
            · exact ((List.perm_insertionSort _ _).trans hpermS).trans
                (List.perm_insertionSort _ _).symm
            · exact List.sorted_insertionSort _ _
            · exact List.sorted_insertionSort _ _
            · apply (((List.perm_insertionSort strFieldLe
                (l.map fieldStr)).map Prod.fst).nodup_iff).mpr
              rw [List.map_map]
              exact hnodup
          rw [insertionSort_map_fieldStr, insertionSort_map_fieldStr, hsorteq]
termination_by v _ _ _ => sizeOf v
decreasing_by
  · exact Nat.lt_of_lt_of_le (sizeOf_mem_lt_of_mem hx) (by simp)
  · exact Nat.lt_of_lt_of_le (sizeOf_snd_lt_of_mem hal) (by simp)

/-- C8: for every mapping (including nested mappings and arrays at any
depth) and every reordering of its key insertion order with identical
key/value pairs, compute_checksum agrees on the two: the canonical
serialization sorts the keys of every nested mapping, so insertion
order never affects the digest. -/
theorem compute_checksum_key_order_invariant (v w : JsonValue)
    (hp : ObjPerm v w) (hu : UniqueKeys v) :
    compute_checksum v = compute_checksum w := by
  cases hp with
  | null => rfl
  | bool b => rfl
  | num n => rfl
  | str s => rfl
  | arr hlen hzip =>
      simp only [compute_checksum]
      rw [stringify_eq_of_objPerm _ _ (ObjPerm.arr hlen hzip) hu]
  | obj hperm hlen hkeys hvals =>
      simp only [compute_checksum]
      rw [stringify_eq_of_objPerm _ _ (ObjPerm.obj hperm hlen hkeys hvals) hu]

/-- Concrete two-field mapping in one insertion order. -/
def exObjBA : JsonValue := .obj [("b", .num 2), ("a", .num 1)]

/-- The same mapping with the opposite insertion order. -/
def exObjAB : JsonValue := .obj [("a", .num 1), ("b", .num 2)]

theorem exObjPerm_holds : ObjPerm exObjBA exObjAB :=
  ObjPerm.obj (List.Perm.swap ("a", JsonValue.num 1) ("b", JsonValue.num 2) [])
    rfl
    (by
      intro q hq
      simp only [List.zip, List.zipWith, List.mem_cons, List.not_mem_nil, or_false] at hq
      rcases hq with rfl | rfl <;> rfl)
    (by
      intro q hq
      simp only [List.zip, List.zipWith, List.mem_cons, List.not_mem_nil, or_false] at hq
      rcases hq with rfl | rfl
      · exact ObjPerm.num 1
      · exact ObjPerm.num 2)

theorem exObjBA_uniqueKeys : UniqueKeys exObjBA :=
  UniqueKeys.obj (by simp)
    (by
      intro p hp
      simp only [exObjBA, List.mem_cons, List.not_mem_nil, or_false] at hp
      rcases hp with rfl | rfl
      · exact UniqueKeys.num 2
      · exact UniqueKeys.num 1)

/-- Witness for C8: the checksum of a concrete two-field mapping does
not change when its insertion order is reversed. -/
theorem compute_checksum_key_order_invariant_witness :
    ObjPerm exObjBA exObjAB ∧ UniqueKeys exObjBA ∧
      compute_checksum exObjBA = compute_checksum exObjAB :=
  ⟨exObjPerm_holds, exObjBA_uniqueKeys,
    compute_checksum_key_order_invariant exObjBA exObjAB exObjPerm_holds exObjBA_uniqueKeys⟩

/-- C10: compute_checksum hashes a string input as is, bypassing the
canonical serializer, so every non-string value collides with the
string equal to its canonical serialization; in particular the number 5
and the string "5" yield the identical digest. -/
theorem compute_checksum_string_bypass :
    (∀ s : String, compute_checksum (.str s) = sha256hex s) ∧
    (∀ v : JsonValue, isStringValue v = false →
      compute_checksum v = compute_checksum (.str (stringifyDeterministic v))) ∧
    compute_checksum (.num 5) = compute_checksum (.str "5") := by
  refine ⟨fun s => rfl, ?_, ?_⟩
  · intro v hv
    cases v with
    | str s => simp [isStringValue] at hv
    | null => rfl
    | bool b => rfl
    | num n => rfl
    | arr items => rfl
    | obj fields => rfl
  · have h5 : stringifyDeterministic (.num 5) = "5" := by
      rw [stringifyDeterministic]
      rfl
    show sha256hex (stringifyDeterministic (.num 5)) = sha256hex "5"
    rw [h5]

/-- Witness for C10: the theorem applied at the number 5. -/
theorem compute_checksum_string_bypass_witness :
    isStringValue (.num 5) = false ∧
      compute_checksum (.num 5) =
        compute_checksum (.str (stringifyDeterministic (.num 5))) :=
  ⟨rfl, compute_checksum_string_bypass.2.1 (.num 5) rfl⟩

end Integrity

namespace Retry

/-- The dynamic error objects the retry handler inspects.  Absent
JavaScript properties are modelled as none; headersRetryAfter models
error.headers and its retry-after entry (none when either is absent). -/
structure RetryError where
  retryable : Option Bool := none
  status : Option Int := none
  statusCode : Option Int := none
  retryAfter : Option Int := none
  headersRetryAfter : Option String := none
  message : String := ""
deriving DecidableEq, Repr

/-- The RetryHandler configuration resolved in the constructor. -/
structure RetryConfig where
  maxAttempts : Nat
  baseDelay : ℚ
  maxDelay : ℚ
  backoffMultiplier : ℚ

/-- Shallow embedding of RetryHandler.isRetryable: an explicit
retryable flag wins; otherwise membership of status or statusCode in
the fixed retryable status code list. -/
def isRetryable (e : RetryError) : Bool :=
  match e.retryable with
  | some b => b
  | none =>
      let codes : List Int := [429, 500, 502, 503, 504]
      (match e.status with
       | some s => codes.contains s
       | none => false) ||
      (match e.statusCode with
       | some s => codes.contains s
       | none => false)

/-- Parse a leading run of decimal digits; none when the run is empty. -/
def parseDigitRun : List Char → Nat → Bool → Option Nat
  | [], acc, seen => if seen then some acc else none
  | c :: rest, acc, seen =>
      if c.isDigit then parseDigitRun rest (acc * 10 + (c.toNat - 48)) true
      else if seen then some acc else none

/-- Model of the JavaScript parseInt in base 10: leading whitespace is
skipped, an optional sign is consumed, then the longest digit prefix is
read; none models NaN. -/
def jsParseInt (s : String) : Option Int :=
  let cs := s.toList.dropWhile (fun c => c = ' ' || c = '\t' || c = '\n' || c = '\r')
  match cs with
  | '-' :: rest => (parseDigitRun rest 0 false).map (fun n => -(n : Int))
  | '+' :: rest => (parseDigitRun rest 0 false).map (fun n => (n : Int))
  | _ => (parseDigitRun cs 0 false).map (fun n => (n : Int))

/-- The exponential backoff with jitter branch of calculateDelay; rand
models the Math.random draw in the unit interval. -/
def backoffDelay (cfg : RetryConfig) (attempt : Nat) (rand : ℚ) : ℚ :=
  let delay := min (cfg.baseDelay * cfg.backoffMultiplier ^ (attempt - 1)) cfg.maxDelay
  let jitter := delay * (1 / 4) * (rand * 2 - 1)
  max 0 (delay + jitter)

/-- Shallow embedding of RetryHandler.calculateDelay.  The JavaScript
truthiness test on error.retryAfter makes a zero value fall through to
the next branch; a present non-empty headers entry is parsed and used
when it parses, and otherwise falls through to the jittered backoff.
Delays are in milliseconds; retry-after values are in seconds. -/
def jsTruthyInt : Option Int → Bool
  | some n => n != 0
  | none => false

def calculateDelay (cfg : RetryConfig) (attempt : Nat) (e : RetryError)
    (rand : ℚ) : ℚ :=
  if jsTruthyInt e.retryAfter then
    ((e.retryAfter.getD 0 : Int) : ℚ) * 1000
  else
    match e.headersRetryAfter with
    | some s =>
        if s ≠ "" then
          match jsParseInt s with
          | some ra => (ra : ℚ) * 1000
          | none => backoffDelay cfg attempt rand
        else backoffDelay cfg attempt rand
    | none => backoffDelay cfg attempt rand

/-- One step of the withRetry loop: fuel counts the remaining loop
iterations (maxAttempts in total), attempt is the one-based loop
counter, lastError the variable of the same name (none models the
undefined value it starts with).  The result pairs the outcome (the
error payload of a throw, none being a thrown undefined) with the
number of times the operation was invoked. -/
def withRetryGo (maxA : Nat) (op : Nat → Except RetryError Unit) :
    Nat → Nat → Option RetryError → Except (Option RetryError) Unit × Nat
  | 0, _, lastErr => (Except.error lastErr, 0)
  | fuel + 1, attempt, _ =>
      match op attempt with
      | Except.ok a => (Except.ok a, 1)
      | Except.error e =>
          if ¬ isRetryable e then (Except.error (some e), 1)
          else if attempt = maxA then (Except.error (some e), 1)
          else
            let r := withRetryGo maxA op fuel (attempt + 1) (some e)
            (r.1, r.2 + 1)

/-- Shallow embedding of RetryHandler.withRetry, restricted to the
control flow that decides the outcome and the invocation count: the
inter-attempt sleep suspends but does not influence either, and the
delay computation is verified separately through calculateDelay. -/
def withRetry (cfg : RetryConfig) (op : Nat → Except RetryError Unit) :
    Except (Option RetryError) Unit × Nat :=
  withRetryGo cfg.maxAttempts op cfg.maxAttempts 1 none

/-- C3: an always-failing operation with retryable failures and
maxAttempts 3 is invoked exactly 3 times and the last failure is
re-raised; a first failure classified non-retryable stops after exactly
one invocation; with maxAttempts 1 the first failure is terminal. -/
theorem withRetry_failure_semantics :
    (∀ (cfg : RetryConfig) (op : Nat → Except RetryError Unit) (e : Nat → RetryError),
      cfg.maxAttempts = 3 → (∀ k, op k = Except.error (e k)) →
      (∀ k, isRetryable (e k) = true) →
      withRetry cfg op = (Except.error (some (e 3)), 3)) ∧
    (∀ (cfg : RetryConfig) (op : Nat → Except RetryError Unit) (e1 : RetryError),
      1 ≤ cfg.maxAttempts → op 1 = Except.error e1 → isRetryable e1 = false →
      withRetry cfg op = (Except.error (some e1), 1)) ∧
    (∀ (cfg : RetryConfig) (op : Nat → Except RetryError Unit) (e1 : RetryError),
      cfg.maxAttempts = 1 → op 1 = Except.error e1 →
      withRetry cfg op = (Except.error (some e1), 1)) := by
  refine ⟨?_, ?_, ?_⟩
  · intro cfg op e hmax hop hret
    simp [withRetry, hmax, withRetryGo, hop 1, hop 2, hop 3,
      hret 1, hret 2, hret 3]
  · intro cfg op e1 hmax hop hret
    obtain ⟨n, hn⟩ : ∃ n, cfg.maxAttempts = n + 1 :=
      ⟨cfg.maxAttempts - 1, by omega⟩
    simp [withRetry, hn, withRetryGo, hop, hret]
  · intro cfg op e1 hmax hop
    by_cases hr : isRetryable e1 = true
    · simp [withRetry, hmax, withRetryGo, hop, hr]
    · simp [withRetry, hmax, withRetryGo, hop, hr]

/-- Always-failing retryable operation used as the witness input; the
status field records the attempt number so that the first and the last
failure are distinguishable. -/
def alwaysFailErr (k : Nat) : RetryError :=
  { retryable := some true, status := some (k : Int) }

/-- Witness for C3: three attempts, and the re-raised error is the one
of the third attempt, not the first. -/
theorem withRetry_failure_semantics_witness :
    withRetry ⟨3, 1000, 30000, 2⟩ (fun k => Except.error (alwaysFailErr k)) =
      (Except.error (some (alwaysFailErr 3)), 3) :=
  withRetry_failure_semantics.1 ⟨3, 1000, 30000, 2⟩
    (fun k => Except.error (alwaysFailErr k)) alwaysFailErr rfl
    (fun _ => rfl) (fun _ => rfl)

/-- Concrete configuration used by the delay counterexample. -/
def cfgEx : RetryConfig := ⟨3, 1000, 30000, 2⟩

/-- An error carrying the explicit retry-after duration zero. -/
def errRetryAfterZero : RetryError := { retryAfter := some 0 }

/-- Counterexample for C7 as stated: a failure carrying the explicit
retry-after duration 0 seconds does not see that duration used
verbatim; the JavaScript truthiness test skips a zero retryAfter and
the code computes the jittered backoff (1000 ms here) instead of 0. -/
theorem calculateDelay_retry_after_zero_not_verbatim :
    errRetryAfterZero.retryAfter = some 0 ∧
      calculateDelay cfgEx 1 errRetryAfterZero (1 / 2) = 1000 ∧
      (1000 : ℚ) ≠ (0 : ℚ) * 1000 := by
  refine ⟨rfl, ?_, by norm_num⟩
  show max 0 (min ((1000 : ℚ) * 2 ^ (1 - 1)) 30000 +
    min ((1000 : ℚ) * 2 ^ (1 - 1)) 30000 * (1 / 4) * ((1 / 2) * 2 - 1)) = 1000
  norm_num

theorem backoffDelay_bounds (cfg : RetryConfig) (attempt : Nat) (rand : ℚ)
    (hb : 0 ≤ cfg.baseDelay) (hm : 0 ≤ cfg.maxDelay)
    (hmul : 0 ≤ cfg.backoffMultiplier) (h0 : 0 ≤ rand) (h1 : rand < 1) :
    (3 / 4) * min (cfg.baseDelay * cfg.backoffMultiplier ^ (attempt - 1)) cfg.maxDelay
      ≤ backoffDelay cfg attempt rand ∧
    backoffDelay cfg attempt rand
      ≤ (5 / 4) * min (cfg.baseDelay * cfg.backoffMultiplier ^ (attempt - 1)) cfg.maxDelay ∧
    0 ≤ backoffDelay cfg attempt rand := by
  have hd : 0 ≤ min (cfg.baseDelay * cfg.backoffMultiplier ^ (attempt - 1)) cfg.maxDelay :=
    le_min (mul_nonneg hb (pow_nonneg hmul _)) hm
  set d := min (cfg.baseDelay * cfg.backoffMultiplier ^ (attempt - 1)) cfg.maxDelay with hdef
  have hx : (3 / 4) * d ≤ d + d * (1 / 4) * (rand * 2 - 1) := by
    nlinarith [mul_nonneg hd h0]
  have hy : d + d * (1 / 4) * (rand * 2 - 1) ≤ (5 / 4) * d := by
    nlinarith [mul_nonneg hd (by linarith : (0 : ℚ) ≤ 1 - rand)]
  have hnn : (0 : ℚ) ≤ d + d * (1 / 4) * (rand * 2 - 1) :=
    le_trans (by nlinarith) hx
  have hmax : backoffDelay cfg attempt rand = d + d * (1 / 4) * (rand * 2 - 1) :=
    max_eq_right hnn
  rw [hmax]
  exact ⟨hx, hy, hnn⟩

/-- C7 (amended): a nonzero retry-after on the failure object is used
verbatim (seconds converted to milliseconds); failing that, a present,
non-empty, parseable Retry-After style header value is used verbatim;
otherwise the delay lies within a quarter of the capped exponential
backoff value on either side for every jitter draw and is never
negative. -/
theorem calculateDelay_policy :
    (∀ (cfg : RetryConfig) (attempt : Nat) (e : RetryError) (rand : ℚ) (ra : Int),
      e.retryAfter = some ra → ra ≠ 0 →
      calculateDelay cfg attempt e rand = (ra : ℚ) * 1000) ∧
    (∀ (cfg : RetryConfig) (attempt : Nat) (e : RetryError) (rand : ℚ)
        (s : String) (ra : Int),
      jsTruthyInt e.retryAfter = false → e.headersRetryAfter = some s → s ≠ "" →
      jsParseInt s = some ra →
      calculateDelay cfg attempt e rand = (ra : ℚ) * 1000) ∧
    (∀ (cfg : RetryConfig) (attempt : Nat) (e : RetryError) (rand : ℚ),
      jsTruthyInt e.retryAfter = false →
      (∀ s : String, e.headersRetryAfter = some s → s = "" ∨ jsParseInt s = none) →
      0 ≤ cfg.baseDelay → 0 ≤ cfg.maxDelay → 0 ≤ cfg.backoffMultiplier →
      0 ≤ rand → rand < 1 →
      (3 / 4) * min (cfg.baseDelay * cfg.backoffMultiplier ^ (attempt - 1)) cfg.maxDelay
        ≤ calculateDelay cfg attempt e rand ∧
      calculateDelay cfg attempt e rand
        ≤ (5 / 4) * min (cfg.baseDelay * cfg.backoffMultiplier ^ (attempt - 1)) cfg.maxDelay ∧
      0 ≤ calculateDelay cfg attempt e rand) := by
  refine ⟨?_, ?_, ?_⟩
  · intro cfg attempt e rand ra hra hnz
    simp [calculateDelay, hra, jsTruthyInt, hnz]
  · intro cfg attempt e rand s ra hfalse hhdr hne hparse
    simp [calculateDelay, hfalse, hhdr, hne, hparse]
  · intro cfg attempt e rand hfalse hhdr hb hm hmul h0 h1
    have hback : calculateDelay cfg attempt e rand = backoffDelay cfg attempt rand := by
      cases hh : e.headersRetryAfter with
      | none => simp [calculateDelay, hfalse, hh]
      | some s =>
          rcases hhdr s hh with hs | hs
          · simp [calculateDelay, hfalse, hh, hs]
          · by_cases hse : s = ""
            · simp [calculateDelay, hfalse, hh, hse]
            · simp [calculateDelay, hfalse, hh, hse, hs]
    rw [hback]
    exact backoffDelay_bounds cfg attempt rand hb hm hmul h0 h1

/-- Witness for C7 (amended): the backoff branch applied to a concrete
configuration, attempt 2 and jitter draw one third. -/
theorem calculateDelay_policy_witness :
    (3 / 4) * min ((1000 : ℚ) * 2 ^ (2 - 1)) 30000
      ≤ calculateDelay ⟨3, 1000, 30000, 2⟩ 2 {} (1 / 3) ∧
    calculateDelay ⟨3, 1000, 30000, 2⟩ 2 {} (1 / 3)
      ≤ (5 / 4) * min ((1000 : ℚ) * 2 ^ (2 - 1)) 30000 ∧
    0 ≤ calculateDelay ⟨3, 1000, 30000, 2⟩ 2 {} (1 / 3) :=
  calculateDelay_policy.2.2 ⟨3, 1000, 30000, 2⟩ 2 {} (1 / 3) rfl
    (fun s h => by cases h) (by norm_num) (by norm_num) (by norm_num)
    (by norm_num) (by norm_num)

end Retry

namespace Callback

/-- Configuration resolved by the CallbackClient constructor. -/
structure CallbackConfig where
  maxRetries : Nat
  retryDelay : Nat

/-- Default configuration of the CallbackClient constructor. -/
def defaultCallbackConfig : CallbackConfig := { maxRetries := 3, retryDelay := 1000 }

/-- One HTTP POST outcome as observed through the axios client whose
validateStatus accepts every status below 500: a status below 500
resolves, a status of 500 or above or a connectivity failure rejects. -/
inductive HttpOutcome where
  | resolved (status : Nat)
  | rejected (msg : String) (responseStatus : Option Nat)

/-- The error values flowing through the send loop: a message and the
optional attached response status. -/
structure CbError where
  msg : String
  responseStatus : Option Nat
deriving DecidableEq, Repr

/-- Shallow embedding of one iteration body of sendWithRetry, shared by
the loop below: given the HTTP outcome of this attempt, either a
success value (status code), a loop-breaking error (client error with
attached response), or a retryable error. -/
inductive AttemptResult where
  | succeed (statusCode : Nat)
  | abort (e : CbError)
  | retry (e : CbError)

/-- The decision the source takes on one attempt: 2xx returns, a
resolved 4xx throws a synthetic error without an attached response
(which the catch block then retries, as it only aborts on errors with
an attached 4xx response), any other resolved status throws a synthetic
retried error, and a rejected promise aborts only when it carries an
attached 4xx response status. -/
def classifyAttempt (o : HttpOutcome) : AttemptResult :=
  match o with
  | .resolved status =>
      if 200 ≤ status ∧ status < 300 then .succeed status
      else if 400 ≤ status ∧ status < 500 then
        .retry ⟨"HTTP " ++ toString status ++ ": Client error", none⟩
      else .retry ⟨"HTTP " ++ toString status ++ ": Server error", none⟩
  | .rejected msg responseStatus =>
      match responseStatus with
      | some s =>
          if 400 ≤ s ∧ s < 500 then .abort ⟨msg, some s⟩
          else .retry ⟨msg, some s⟩
      | none => .retry ⟨msg, none⟩

/-- Shallow embedding of the sendWithRetry loop; http gives the HTTP
outcome of each attempt, the Nat component of the result counts the
POST requests performed. -/
def sendWithRetryGo (maxRetries : Nat) (http : Nat → HttpOutcome) :
    Nat → Nat → Option CbError → Except CbError (Nat × Nat) × Nat
  | 0, _, lastErr =>
      (Except.error ⟨"All " ++ toString maxRetries ++
        " callback attempts failed. Last error: " ++
        (match lastErr with | some e => e.msg | none => "Unknown error"), none⟩, 0)
  | fuel + 1, attempt, _ =>
      match classifyAttempt (http attempt) with
      | .succeed statusCode => (Except.ok (statusCode, attempt), 1)
      | .abort e => (Except.error e, 1)
      | .retry e =>
          let r := sendWithRetryGo maxRetries http fuel (attempt + 1) (some e)
          (r.1, r.2 + 1)

/-- Shallow embedding of CallbackClient.sendWithRetry. -/
def sendWithRetry (cfg : CallbackConfig) (http : Nat → HttpOutcome) :
    Except CbError (Nat × Nat) × Nat :=
  sendWithRetryGo cfg.maxRetries http cfg.maxRetries 1 none

/-- The observable result of sendCallback; the callbackId and duration
fields of the source (a clock read and a random identifier) are
omitted. -/
structure SendResult where
  success : Bool
  error : Option String
  statusCode : Option Nat
  attempts : Option Nat
deriving DecidableEq, Repr

/-- Shallow embedding of CallbackClient.sendCallback: an empty URL
short-circuits with a failure-shaped result; any other URL goes
straight to sendWithRetry — the source performs no URL validation on
this path.  The payload does not influence the outcome; the second
component counts the HTTP POST requests performed. -/
def sendCallback {α : Type} (cfg : CallbackConfig) (http : Nat → HttpOutcome)
    (url : String) (_payload : α) : SendResult × Nat :=
  if url = "" then
    ({ success := false, error := some "No callback URL provided",
       statusCode := none, attempts := none }, 0)
  else
    match sendWithRetry cfg http with
    | (Except.ok (statusCode, attempt), n) =>
        ({ success := true, error := none,
           statusCode := some statusCode, attempts := some attempt }, n)
    | (Except.error e, n) =>
        ({ success := false, error := some e.msg,
           statusCode := none, attempts := none }, n)

/-- Check whether the first octet after the 172. prefix is in 16..31
followed by a dot, mirroring the corresponding regular expression. -/
def is172PrivateRest (cs : List Char) : Bool :=
  match cs with
  | '1' :: d :: '.' :: _ => d = '6' || d = '7' || d = '8' || d = '9'
  | '2' :: d :: '.' :: _ => d.isDigit
  | '3' :: d :: '.' :: _ => d = '0' || d = '1'
  | _ => false

/-- Anchored prefix test on character lists, the meaning of a regular
expression of the form caret followed by a literal. -/
def leadMatch : List Char → List Char → Bool
  | [], _ => true
  | _ :: _, [] => false
  | p :: ps, c :: cs => p = c && leadMatch ps cs

/-- Prefix test on strings through their character lists. -/
def strLeads (s pat : String) : Bool := leadMatch pat.toList s.toList

/-- ASCII lowercasing of one character, the case-insensitive regular
expression flag applied to ASCII hostnames. -/
def asciiLower (c : Char) : Char :=
  if 'A' ≤ c && c ≤ 'Z' then Char.ofNat (c.toNat + 32) else c

/-- Shallow embedding of CallbackClient.isLocalAddress: the anchored
regular expression list rejecting loopback, RFC1918 private, link-local
and related hostnames. -/
def isLocalAddress (hostname : String) : Bool :=
  hostname.toList.map asciiLower = "localhost".toList
  || strLeads hostname "127."
  || strLeads hostname "10."
  || strLeads hostname "192.168."
  || (strLeads hostname "172." && is172PrivateRest (hostname.toList.drop 4))
  || strLeads hostname "169.254."
  || strLeads hostname "0."
  || hostname.toList = "::1".toList
  || strLeads hostname "fc00::"
  || strLeads hostname "fe80::"

/-- C1: the hostname of the example URL is classified local by the
classifier the source defines for SSRF mitigation, yet sendCallback on
that URL performs an HTTP POST (one here, where the first attempt
succeeds) and reports delivery success rather than a validation error:
the classifier is never invoked on the sendCallback path. -/
theorem sendCallback_posts_to_local_url :
    isLocalAddress "127.0.0.1" = true ∧
      (sendCallback defaultCallbackConfig (fun _ => HttpOutcome.resolved 200)
        "http://127.0.0.1/x" ()).2 = 1 ∧
      (sendCallback defaultCallbackConfig (fun _ => HttpOutcome.resolved 200)
        "http://127.0.0.1/x" ()).1.success = true := by
  refine ⟨by decide, ?_, ?_⟩ <;>
    simp [sendCallback, sendWithRetry, sendWithRetryGo, classifyAttempt,
      defaultCallbackConfig]

/-- Counterexample for C6 as stated: sendCallback on an empty URL does
not return a non-error result — the returned value has success false
and carries an error message, the shape of a failure. -/
theorem sendCallback_empty_url_failure_shaped :
    (sendCallback defaultCallbackConfig (fun _ => HttpOutcome.resolved 200)
      "" ()).1.success = false ∧
    (sendCallback defaultCallbackConfig (fun _ => HttpOutcome.resolved 200)
      "" ()).1.error = some "No callback URL provided" := by
  constructor <;> rfl

/-- C6 (amended): for every payload and HTTP behaviour, sendCallback
with an empty URL performs no network call and returns the result with
success false and the error message reporting the missing URL; the
source only logs the skip, the returned result is failure-shaped. -/
theorem sendCallback_empty_url_skips {α : Type} (cfg : CallbackConfig)
    (http : Nat → HttpOutcome) (payload : α) :
    sendCallback cfg http "" payload =
      ({ success := false, error := some "No callback URL provided",
         statusCode := none, attempts := none }, 0) := by
  rfl

end Callback

namespace Webhook

/-- Request lifecycle states. -/
inductive Status where
  | pending
  | processing
  | completed
  | failed
deriving DecidableEq, Repr

/-- Forward-progress rank of a status; both terminal states share the
top rank, and the terminal-uniqueness conjunct below rules out moving
between them. -/
def statusRank : Status → Nat
  | .pending => 0
  | .processing => 1
  | .completed => 2
  | .failed => 2

/-- Whether a status is terminal. -/
def isTerminal : Status → Bool
  | .completed => true
  | .failed => true
  | _ => false

/-- The per-request state stored in the pendingRequests map, with the
extraction result type abstracted as a type parameter.  Timestamps are
clock readings passed in as parameters. -/
structure RequestRecord (α : Type) where
  status : Status
  createdAt : Nat
  startTime : Nat
  callbackUrl : Option String
  completedAt : Option Nat := none
  duration : Option Nat := none
  result : Option α := none
  error : Option String := none
  walletStored : Option Bool := none

/-- The record handleAsyncRequest stores before acknowledging. -/
def mkPendingRecord (α : Type) (callbackUrl : Option String) (tNow : Nat) :
    RequestRecord α :=
  { status := .pending, createdAt := tNow, startTime := tNow,
    callbackUrl := callbackUrl }

/-- What the background job body does after the record is marked
processing: either some step before completion throws (the token check,
the connection test or the extraction call — the message is the thrown
error message), or extraction succeeds and storage reports an outcome
(wallet failures are caught and recorded, never thrown). -/
inductive JobOutcome (α : Type) where
  | failure (msg : String)
  | success (data : α) (walletStored : Bool)

/-- Observable events of the acceptance path and the background job,
in program order. -/
inductive GatewayEvent (α : Type) where
  | recordStored (r : RequestRecord α)
  | ackSent (ackStatus : String) (recordStatus : Status)
  | callbackSent (s : Status)
  | cleanupScheduled (delayMs : Nat)

/-- A callback event when a callback URL is present, nothing otherwise. -/
def callbackEventIf (α : Type) (url : Option String) (s : Status) :
    List (GatewayEvent α) :=
  match url with
  | some _ => [GatewayEvent.callbackSent s]
  | none => []

/-- Shallow embedding of processAsyncRequest as the ordered list of its
observable events: the record is marked processing and stored, a
processing callback goes out when a URL is present, then either the
completed record is stored, the completion callback sent and the
five-minute cleanup scheduled, or the failed record is stored and the
failure callback sent — with no cleanup scheduled on the failure path. -/
def processAsyncRequest {α : Type} (rec : RequestRecord α)
    (outcome : JobOutcome α) (tEnd : Nat) : List (GatewayEvent α) :=
  let rec1 := { rec with status := Status.processing }
  [GatewayEvent.recordStored rec1]
    ++ callbackEventIf α rec.callbackUrl .processing
    ++ match outcome with
       | .success d ws =>
           [GatewayEvent.recordStored
             { rec1 with
               status := Status.completed
               completedAt := some tEnd
               duration := some (tEnd - rec.startTime)
               result := some d
               walletStored := some ws }]
             ++ callbackEventIf α rec.callbackUrl .completed
             ++ [GatewayEvent.cleanupScheduled (5 * 60 * 1000)]
       | .failure msg =>
           [GatewayEvent.recordStored
             { rec1 with
               status := Status.failed
               completedAt := some tEnd
               duration := some (tEnd - rec.startTime)
               error := some msg }]
             ++ callbackEventIf α rec.callbackUrl .failed

/-- Shallow embedding of handleAsyncRequest followed by the setImmediate
continuation: the pending record is stored, the acknowledgment is
written to the response, and only then does the scheduled background
job run — the JavaScript event loop runs a setImmediate callback after
the current handler has completed. -/
def handleAsyncRequest (α : Type) (callbackUrl : Option String) (tNow : Nat)
    (outcome : JobOutcome α) (tEnd : Nat) : List (GatewayEvent α) :=
  let rec0 := mkPendingRecord α callbackUrl tNow
  [GatewayEvent.recordStored rec0, GatewayEvent.ackSent "accepted" rec0.status]
    ++ processAsyncRequest rec0 outcome tEnd

/-- The record snapshots written to the shared map, in order, starting
with the pending record stored by the acceptance path. -/
def asyncRecordTrace (α : Type) (callbackUrl : Option String) (tNow : Nat)
    (outcome : JobOutcome α) (tEnd : Nat) : List (RequestRecord α) :=
  (handleAsyncRequest α callbackUrl tNow outcome tEnd).filterMap
    (fun e => match e with
      | .recordStored r => some r
      | _ => none)

/-- The cleanup delays scheduled during the run. -/
def scheduledCleanups (α : Type) (callbackUrl : Option String) (tNow : Nat)
    (outcome : JobOutcome α) (tEnd : Nat) : List Nat :=
  (handleAsyncRequest α callbackUrl tNow outcome tEnd).filterMap
    (fun e => match e with
      | .cleanupScheduled d => some d
      | _ => none)

/-- The status-query projection getRequestStatus builds from a stored
record; the duration recomputation mirrors the JavaScript truthiness
test on the stored duration. -/
structure StatusProjection (α : Type) where
  status : Status
  createdAt : Nat
  completedAt : Option Nat
  duration : Nat
  hasCallback : Bool
  result : Option α
  error : Option String

/-- Shallow embedding of getRequestStatus on a record present in the
map (the absent case returns the not-found signal upstream). -/
def getRequestStatus {α : Type} (rec : RequestRecord α) (tNow : Nat) :
    StatusProjection α :=
  { status := rec.status
    createdAt := rec.createdAt
    completedAt := rec.completedAt
    duration := match rec.duration with
      | some d => if d ≠ 0 then d else tNow - rec.startTime
      | none => tNow - rec.startTime
    hasCallback := rec.callbackUrl.isSome
    result := if rec.status = Status.completed then rec.result else none
    error := rec.error }

/-- C2: along the stored snapshots of an asynchronously accepted
request, the status rank strictly increases (pending, processing, then
one terminal state), at most one snapshot is terminal, completedAt is
unset while the status is pending or processing, result is set only on
completed and error only on failed snapshots; and the status-query
projection never exposes a result unless the record is completed. -/
theorem asyncRecord_lifecycle_invariant (α : Type) (callbackUrl : Option String)
    (tNow : Nat) (outcome : JobOutcome α) (tEnd : Nat) :
    List.Chain' (fun a b => statusRank a.status < statusRank b.status)
        (asyncRecordTrace α callbackUrl tNow outcome tEnd) ∧
    ((asyncRecordTrace α callbackUrl tNow outcome tEnd).filter
        (fun r => isTerminal r.status)).length ≤ 1 ∧
    (∀ r ∈ asyncRecordTrace α callbackUrl tNow outcome tEnd,
      (r.status = Status.pending ∨ r.status = Status.processing) →
        r.completedAt = none) ∧
    (∀ r ∈ asyncRecordTrace α callbackUrl tNow outcome tEnd,
      r.result.isSome → r.status = Status.completed) ∧
    (∀ r ∈ asyncRecordTrace α callbackUrl tNow outcome tEnd,
      r.error.isSome → r.status = Status.failed) ∧
    (∀ (rec : RequestRecord α) (tq : Nat),
      (getRequestStatus rec tq).result.isSome → rec.status = Status.completed) := by
  have hproj : ∀ (rec : RequestRecord α) (tq : Nat),
      (getRequestStatus rec tq).result.isSome → rec.status = Status.completed := by
    intro rec tq h
    by_cases hs : rec.status = Status.completed
    · exact hs
    · simp [getRequestStatus, hs] at h
  cases outcome with
  | success d ws =>
      refine ⟨?_, ?_, ?_, ?_, ?_, hproj⟩ <;>
        cases callbackUrl <;>
          simp [asyncRecordTrace, handleAsyncRequest, processAsyncRequest,
            callbackEventIf, mkPendingRecord, statusRank, isTerminal]
  | failure msg =>
      refine ⟨?_, ?_, ?_, ?_, ?_, hproj⟩ <;>
        cases callbackUrl <;>
          simp [asyncRecordTrace, handleAsyncRequest, processAsyncRequest,
            callbackEventIf, mkPendingRecord, statusRank, isTerminal]

/-- Witness for C2: on a concrete successful run, the snapshot ranks
strictly increase and the pending snapshot, which is in the trace, has
no completion timestamp. -/
theorem asyncRecord_lifecycle_invariant_witness :
    List.Chain' (fun a b => statusRank a.status < statusRank b.status)
      (asyncRecordTrace Nat (some "https://example.com/cb") 0
        (JobOutcome.success 7 true) 100) ∧
    mkPendingRecord Nat (some "https://example.com/cb") 0 ∈
      asyncRecordTrace Nat (some "https://example.com/cb") 0
        (JobOutcome.success 7 true) 100 ∧
    (mkPendingRecord Nat (some "https://example.com/cb") 0).completedAt = none := by
  have h := asyncRecord_lifecycle_invariant Nat (some "https://example.com/cb") 0
    (JobOutcome.success 7 true) 100
  have hmem : mkPendingRecord Nat (some "https://example.com/cb") 0 ∈
      asyncRecordTrace Nat (some "https://example.com/cb") 0
        (JobOutcome.success 7 true) 100 := by
    simp [asyncRecordTrace, handleAsyncRequest, processAsyncRequest,
      callbackEventIf, mkPendingRecord]
  exact ⟨h.1, hmem, h.2.2.1 _ hmem (Or.inl rfl)⟩

/-- Counterexample for C4 as stated: on a concrete run whose record
reaches the terminal state failed, no eviction is ever scheduled — the
source schedules the five-minute cleanup only on the success path, so
the failed record is never removed from the shared store. -/
theorem failed_record_never_evicted :
    (asyncRecordTrace Nat (some "https://example.com/cb") 0
        (JobOutcome.failure "Unable to connect to Monzo API") 100).map
        (fun r => r.status) =
      [Status.pending, Status.processing, Status.failed] ∧
    scheduledCleanups Nat (some "https://example.com/cb") 0
        (JobOutcome.failure "Unable to connect to Monzo API") 100 = [] := by
  constructor <;>
    simp [asyncRecordTrace, scheduledCleanups, handleAsyncRequest,
      processAsyncRequest, callbackEventIf, mkPendingRecord]

/-- C4 (amended): a record that reaches completed has exactly one
eviction scheduled, five minutes after the terminal transition and
never earlier; a record that reaches failed has no eviction scheduled
and remains in the shared store. -/
theorem cleanup_scheduling_policy (α : Type) (callbackUrl : Option String)
    (tNow tEnd : Nat) :
    (∀ (d : α) (ws : Bool),
      scheduledCleanups α callbackUrl tNow (JobOutcome.success d ws) tEnd =
        [5 * 60 * 1000]) ∧
    (∀ msg : String,
      scheduledCleanups α callbackUrl tNow (JobOutcome.failure msg) tEnd = []) := by
  constructor
  · intro d ws
    cases callbackUrl <;>
      simp [scheduledCleanups, handleAsyncRequest, processAsyncRequest,
        callbackEventIf, mkPendingRecord]
  · intro msg
    cases callbackUrl <;>
      simp [scheduledCleanups, handleAsyncRequest, processAsyncRequest,
        callbackEventIf, mkPendingRecord]

/-- C9: the acceptance path stores the pending record and writes the
acknowledgment as the first two events, and every callback notification
event of the run comes strictly later — the background job is scheduled
through setImmediate and runs only after the handler has returned. -/
theorem ack_observable_before_callbacks (α : Type) (callbackUrl : Option String)
    (tNow : Nat) (outcome : JobOutcome α) (tEnd : Nat) :
    (handleAsyncRequest α callbackUrl tNow outcome tEnd)[0]? =
      some (GatewayEvent.recordStored (mkPendingRecord α callbackUrl tNow)) ∧
    (mkPendingRecord α callbackUrl tNow).status = Status.pending ∧
    (handleAsyncRequest α callbackUrl tNow outcome tEnd)[1]? =
      some (GatewayEvent.ackSent "accepted" Status.pending) ∧
    (∀ (k : Nat) (s : Status),
      (handleAsyncRequest α callbackUrl tNow outcome tEnd)[k]? =
        some (GatewayEvent.callbackSent s) → 2 ≤ k) := by
  refine ⟨?_, rfl, ?_, ?_⟩
  · simp [handleAsyncRequest]
  · simp [handleAsyncRequest, mkPendingRecord]
  · intro k s h
    match k with
    | 0 => simp [handleAsyncRequest] at h
    | 1 => simp [handleAsyncRequest] at h
    | k + 2 => omega

/-- Witness for C9: on a concrete run with a callback URL, the first
callback notification sits at index 3, after the stored record and the
acknowledgment. -/
theorem ack_observable_before_callbacks_witness :
    (handleAsyncRequest Nat (some "https://example.com/cb") 0
        (JobOutcome.success 7 true) 100)[3]? =
      some (GatewayEvent.callbackSent Status.processing) ∧
    2 ≤ 3 := by
  have h4 := (ack_observable_before_callbacks Nat (some "https://example.com/cb") 0
    (JobOutcome.success 7 true) 100).2.2.2
  have hev : (handleAsyncRequest Nat (some "https://example.com/cb") 0
      (JobOutcome.success 7 true) 100)[3]? =
      some (GatewayEvent.callbackSent Status.processing) := by
    simp [handleAsyncRequest, processAsyncRequest, callbackEventIf, mkPendingRecord]
  exact ⟨hev, h4 3 Status.processing hev⟩

end Webhook

namespace Wallet

open Integrity

/-- The raw extraction payload prepareWalletData receives; absent
properties are none, defaulted with the logical-or fallbacks of the
source. -/
structure RawData where
  accounts : Option (List JsonValue) := none
  balances : Option (List JsonValue) := none
  transactions : Option (List JsonValue) := none
  connectionTest : Option JsonValue := none

/-- Shallow embedding of WalletClient.prepareWalletData: the envelope
actually built by the source, with the clock reading passed in as the
timestamp parameter.  It carries a source block, a metadata block with
record bookkeeping fields, and the data block with the raw lists and
extraction counters — and no checksum of any kind. -/
def prepareWalletData (rawData : RawData) (nsp recordName timestamp : String) :
    JsonValue :=
  .obj
    [("source", .obj
        [("name", .str "monzo-data-connector"),
         ("version", .str "1.0.0"),
         ("provider", .str "monzo"),
         ("extractionTime", .str timestamp)]),
     ("metadata", .obj
        [("recordName", .str recordName),
         ("namespace", .str nsp),
         ("contentType", .str "application/json"),
         ("dataType", .str "banking-data"),
         ("schema", .str "raw-monzo-api-response"),
         ("created", .str timestamp),
         ("updated", .str timestamp)]),
     ("data", .obj
        [("accounts", .arr (rawData.accounts.getD [])),
         ("balances", .arr (rawData.balances.getD [])),
         ("transactions", .arr (rawData.transactions.getD [])),
         ("connectionTest", rawData.connectionTest.getD .null),
         ("extractionMeta", .obj
            [("accountCount", .num (rawData.accounts.getD []).length),
             ("balanceCount", .num (rawData.balances.getD []).length),
             ("transactionCount", .num (rawData.transactions.getD []).length),
             ("extractedAt", .str timestamp),
             ("connector", .str "monzo-data-connector")])])]

/-- First-match field lookup on an object value; none on other values
or missing keys. -/
def lookupField (v : JsonValue) (key : String) : Option JsonValue :=
  match v with
  | .obj fields => go fields
  | _ => none
where
  go : List (String × JsonValue) → Option JsonValue
    | [] => none
    | (k, w) :: rest => if k = key then some w else go rest

/-- The raw data of the payload-structure test of the repository. -/
def testRawData : RawData :=
  { accounts := some [.obj [("id", .str "acc_123"),
      ("description", .str "Test Account"), ("currency", .str "GBP")]]
    balances := some [.obj [("balance", .num 1000), ("currency", .str "GBP")]]
    transactions := some [.obj [("id", .str "tx_123"), ("amount", .num (-500)),
      ("description", .str "Test Transaction")]] }

/-- C5 does not hold on the source: on the input of the repository
payload-structure test, the envelope prepareWalletData builds (and
storeData persists) has a metadata block without a checksum, without an
inbox_message_id and without a create_at field — the claimed checksum
envelope is absent; the metadata instead holds record bookkeeping
fields and the payload carries an extra source block. -/
theorem prepareWalletData_envelope_lacks_checksum :
    (lookupField (prepareWalletData testRawData "monzo" "test-record"
        "2024-01-01T00:00:00.000Z") "metadata").isSome = true ∧
    ((lookupField (prepareWalletData testRawData "monzo" "test-record"
        "2024-01-01T00:00:00.000Z") "metadata").bind
      (fun md => lookupField md "checksum")) = none ∧
    ((lookupField (prepareWalletData testRawData "monzo" "test-record"
        "2024-01-01T00:00:00.000Z") "metadata").bind
      (fun md => lookupField md "inbox_message_id")) = none ∧
    ((lookupField (prepareWalletData testRawData "monzo" "test-record"
        "2024-01-01T00:00:00.000Z") "metadata").bind
      (fun md => lookupField md "create_at")) = none ∧
    (lookupField (prepareWalletData testRawData "monzo" "test-record"
        "2024-01-01T00:00:00.000Z") "source").isSome = true :=
  ⟨rfl, rfl, rfl, rfl, rfl⟩

end Wallet
